import Mathlib

/-!
Verification development for the real-time workflow event batching and
state-synchronization subsystem.

The definitions below are a shallow embedding of three source components:

* the server-side batching emitter
  (backend/src/services/workflowEventEmitter.ts) together with the
  envelope shape of backend/src/types/schemas.ts,
* the client-side per-entity state store
  (frontend/src/app/store/workflowStore.ts),
* the client-side transport session
  (frontend/src/services/socketService.ts).

JavaScript maps are embedded as functions into `Option`; a map entry that
was deleted is `none`.  JavaScript numbers that hold millisecond
timestamps are embedded as `Int` so that non-positive values are
expressible.  Optional record fields are embedded as `Option`, where
`none` models a property that is absent from the object and therefore
not copied by an object spread; on the event-parsing path every field
that the claims mention is produced with a definite value, so this
reading agrees with the source there.  The opaque `unknown` result
payload is embedded as `String`.
-/

namespace Workflow

/-- Entity lifecycle status, from the closed union
`"completed" | "error" | "idle" | "running"` shared by both sides. -/
inductive NodeStatus where
  | idle
  | running
  | completed
  | error
deriving DecidableEq

/-- Event type enum of `NodeEventSchema`
(`"complete" | "error" | "running" | "start"`). -/
inductive EventType where
  | start
  | running
  | complete
  | error
deriving DecidableEq

/-- Optional payload of a node event envelope, from `NodeEventSchema`
in backend/src/types/schemas.ts (every field is optional). -/
structure EventPayload where
  status : Option NodeStatus := none
  startTime : Option Int := none
  endTime : Option Int := none
  logs : Option (List String) := none
  error : Option String := none
  errorStack : Option String := none
  result : Option String := none
  progress : Option Nat := none
deriving DecidableEq

/-- Node event envelope (`NodeEvent` on both backend and frontend):
event type, entity id, optional payload and a numeric timestamp. -/
structure NodeEvent where
  eventType : EventType
  nodeId : String
  payload : Option EventPayload := none
  timestamp : Int
deriving DecidableEq

/-- The validity check of `NodeEventSchema`: the timestamp must be a
positive integer, and a supplied progress must lie in [0, 100].  The
enum fields are valid by construction of the embedding. -/
def validNodeEvent (e : NodeEvent) : Bool :=
  decide (0 < e.timestamp) &&
    (match e.payload with
     | none => true
     | some pl =>
       match pl.progress with
       | none => true
       | some p => decide (p ≤ 100))

/-- Effective batch size: the constructor resolves
`config.batchSize || 10`, so a missing or zero value becomes 10. -/
def resolveBatchSize (cfg : Option Nat) : Nat :=
  match cfg with
  | none => 10
  | some n => if n = 0 then 10 else n

/-- The message emitted by `flushBatch`: destination socket room and the
payload `{ count, events, workflowId }`. -/
structure BatchMessage where
  dest : String
  count : Nat
  events : List NodeEvent
  workflowId : String
deriving DecidableEq

/-- State of `WorkflowEventEmitter`: the `eventQueues` map (key to
pending list, `none` when the key is absent or deleted) and the
`batchTimers` map (`true` when a timer handle is stored for the key). -/
structure EmitterState where
  eventQueues : String → Option (List NodeEvent)
  batchTimers : String → Bool

/-- Freshly constructed emitter: both maps empty. -/
def initialEmitterState : EmitterState :=
  ⟨fun _ => none, fun _ => false⟩

/-- Queue key construction: the template string
`socketId ++ ":" ++ workflowId`. -/
def qKey (socketId workflowId : String) : String :=
  socketId ++ ":" ++ workflowId

/-- `flushBatch(socketId, workflowId, queueKey)`: if the pending list is
absent or empty, return without touching anything; otherwise clear the
timer entry, emit `{ count, events, workflowId }` to the socket room and
delete the queue entry. -/
def flushBatch (s : EmitterState) (socketId workflowId queueKey : String) :
    EmitterState × Option BatchMessage :=
  match s.eventQueues queueKey with
  | none => (s, none)
  | some q =>
    if q.length = 0 then (s, none)
    else
      (⟨fun k => if k = queueKey then none else s.eventQueues k,
        fun k => if k = queueKey then false else s.batchTimers k⟩,
       some ⟨socketId, q.length, q, workflowId⟩)

/-- `emitNodeEvent(socketId, workflowId, event)` with resolved batch
size `b`: push the event onto the pending list for the key (creating it
when absent), flush when the list length reaches `b`, otherwise arm the
window timer when none is armed for the key. -/
def emitNodeEvent (b : Nat) (socketId workflowId : String) (e : NodeEvent)
    (s : EmitterState) : EmitterState × Option BatchMessage :=
  let queueKey := qKey socketId workflowId
  let q := ((s.eventQueues queueKey).getD []) ++ [e]
  let s1 : EmitterState :=
    ⟨fun k => if k = queueKey then some q else s.eventQueues k, s.batchTimers⟩
  if b ≤ q.length then
    flushBatch s1 socketId workflowId queueKey
  else if s1.batchTimers queueKey then
    (s1, none)
  else
    ({ s1 with batchTimers := fun k => if k = queueKey then true else s1.batchTimers k },
     none)

/-- Sequence of `emitNodeEvent` calls, collecting every batch message
delivered along the way. -/
def emitManyFrom (b : Nat) (socketId workflowId : String) :
    List NodeEvent → EmitterState → EmitterState × List BatchMessage
  | [], s => (s, [])
  | e :: rest, s =>
    let r := emitNodeEvent b socketId workflowId e s
    let r2 := emitManyFrom b socketId workflowId rest r.1
    (r2.1, r.2.toList ++ r2.2)

/-- `cleanup(socketId, workflowId)`: a final flush followed by removal
of the timer entry for the key. -/
def cleanup (s : EmitterState) (socketId workflowId : String) :
    EmitterState × Option BatchMessage :=
  let queueKey := qKey socketId workflowId
  let r := flushBatch s socketId workflowId queueKey
  ({ r.1 with batchTimers := fun k => if k = queueKey then false else r.1.batchTimers k },
   r.2)

/-! ## State store (frontend/src/app/store/workflowStore.ts) -/

/-- `MAX_LOGS_PER_NODE`. -/
def MAX_LOGS_PER_NODE : Nat := 100

/-- `NodeExecutionState` from frontend/src/app/types/store.ts. -/
structure NodeExecutionState where
  status : NodeStatus
  timestamp : Int
  startTime : Option Int := none
  endTime : Option Int := none
  logs : List String
  error : Option String := none
  errorStack : Option String := none
  result : Option String := none
  progress : Option Nat := none
deriving DecidableEq

/-- `Partial<NodeExecutionState>`: the patch object handed to
`updateNodeState`, and the rest object obtained in
`batchUpdateNodeStates` after destructuring away `nodeId`. -/
structure StatePatch where
  status : Option NodeStatus := none
  timestamp : Option Int := none
  startTime : Option Int := none
  endTime : Option Int := none
  logs : Option (List String) := none
  error : Option String := none
  errorStack : Option String := none
  result : Option String := none
  progress : Option Nat := none
deriving DecidableEq

/-- `NodeStateUpdate` from frontend/src/app/types/store.ts: an entity id
together with a partial patch. -/
structure NodeStateUpdate where
  nodeId : String
  status : Option NodeStatus := none
  timestamp : Option Int := none
  startTime : Option Int := none
  endTime : Option Int := none
  logs : Option (List String) := none
  error : Option String := none
  errorStack : Option String := none
  result : Option String := none
  progress : Option Nat := none
deriving DecidableEq

/-- The destructuring `const { nodeId, ...stateUpdate } = update`. -/
def NodeStateUpdate.toPatch (u : NodeStateUpdate) : StatePatch :=
  ⟨u.status, u.timestamp, u.startTime, u.endTime, u.logs, u.error,
   u.errorStack, u.result, u.progress⟩

/-- The `nodeStates` map of the store. -/
def NodeStatesMap : Type := String → Option NodeExecutionState

/-- The empty map `new Map()`. -/
def emptyMap : NodeStatesMap := fun _ => none

/-- The lazily fabricated default
`{ status: "idle", timestamp: now, logs: [] }`. -/
def idleDefault (now : Int) : NodeExecutionState :=
  { status := .idle, timestamp := now, logs := [] }

/-- Object-spread semantics for one optional field: a property present
on the patch overrides the current value, an absent one leaves it. -/
def spreadField {α : Type} (patch : Option α) (cur : Option α) : Option α :=
  match patch with
  | some v => some v
  | none => cur

/-- Log truncation `newState.logs.slice(-MAX_LOGS_PER_NODE)` applied
when the merged list exceeds the cap. -/
def truncateLogs (l : List String) : List String :=
  if MAX_LOGS_PER_NODE < l.length then l.drop (l.length - MAX_LOGS_PER_NODE)
  else l

/-- The merge of `updateNodeState` (lines 95-104): spread the patch over
the current state, then set `timestamp` to `Date.now()` unconditionally,
then truncate logs. -/
def mergeUpdate (now : Int) (cur : NodeExecutionState) (u : StatePatch) :
    NodeExecutionState :=
  { status := u.status.getD cur.status,
    timestamp := now,
    startTime := spreadField u.startTime cur.startTime,
    endTime := spreadField u.endTime cur.endTime,
    logs := truncateLogs (u.logs.getD cur.logs),
    error := spreadField u.error cur.error,
    errorStack := spreadField u.errorStack cur.errorStack,
    result := spreadField u.result cur.result,
    progress := spreadField u.progress cur.progress }

/-- `updateNodeState(nodeId, update)`: fetch the current state or the
idle default, merge, store. -/
def updateNodeState (now : Int) (m : NodeStatesMap) (nodeId : String)
    (u : StatePatch) : NodeStatesMap :=
  fun k =>
    if k = nodeId then some (mergeUpdate now ((m nodeId).getD (idleDefault now)) u)
    else m k

/-- Falsy-or on the patch timestamp: `stateUpdate.timestamp || now`.
A supplied timestamp of 0 is falsy and falls back to `now`. -/
def jsOr (t : Option Int) (now : Int) : Int :=
  match t with
  | some v => if v = 0 then now else v
  | none => now

/-- The merge of one item inside `batchUpdateNodeStates` (lines
122-131): identical to `mergeUpdate` except that the timestamp is
`stateUpdate.timestamp || now`. -/
def mergeBatch (now : Int) (cur : NodeExecutionState) (u : StatePatch) :
    NodeExecutionState :=
  { status := u.status.getD cur.status,
    timestamp := jsOr u.timestamp now,
    startTime := spreadField u.startTime cur.startTime,
    endTime := spreadField u.endTime cur.endTime,
    logs := truncateLogs (u.logs.getD cur.logs),
    error := spreadField u.error cur.error,
    errorStack := spreadField u.errorStack cur.errorStack,
    result := spreadField u.result cur.result,
    progress := spreadField u.progress cur.progress }

/-- One iteration of the `updates.forEach` loop of
`batchUpdateNodeStates`. -/
def applyBatchItem (now : Int) (m : NodeStatesMap) (u : NodeStateUpdate) :
    NodeStatesMap :=
  fun k =>
    if k = u.nodeId then
      some (mergeBatch now ((m u.nodeId).getD (idleDefault now)) u.toPatch)
    else m k

/-- `batchUpdateNodeStates(updates)`: fold the per-item merges over a
copy of the map and commit the result with a single `set`. -/
def batchUpdateNodeStates (now : Int) (m : NodeStatesMap)
    (updates : List NodeStateUpdate) : NodeStatesMap :=
  updates.foldl (applyBatchItem now) m

/-- Modelled from the spec words of the batch contract, for comparison:
"for each patch, same merge logic as `update`" — the fold of the
per-patch merge of `updateNodeState` over the ordered patches. -/
def specFoldUpdate (now : Int) (m : NodeStatesMap)
    (updates : List NodeStateUpdate) : NodeStatesMap :=
  updates.foldl (fun acc u => updateNodeState now acc u.nodeId u.toPatch) m

/-- `getNodeState(nodeId)`. -/
def getNodeState (m : NodeStatesMap) (nodeId : String) :
    Option NodeExecutionState :=
  m nodeId

/-- `resetNodeStates()`: replace the map by a fresh empty one. -/
def resetNodeStates : NodeStatesMap := fun _ => none

/-- The mutating operations of the store, each carrying the clock value
observed by its `Date.now()` calls. -/
inductive StoreOp where
  | update (now : Int) (nodeId : String) (u : StatePatch)
  | batch (now : Int) (updates : List NodeStateUpdate)
  | reset

/-- Apply one store operation. -/
def applyStoreOp (m : NodeStatesMap) : StoreOp → NodeStatesMap
  | .update now nodeId u => updateNodeState now m nodeId u
  | .batch now updates => batchUpdateNodeStates now m updates
  | .reset => resetNodeStates

/-- Run a sequence of store operations. -/
def runStoreOps (m : NodeStatesMap) (ops : List StoreOp) : NodeStatesMap :=
  ops.foldl applyStoreOp m

/-- The retention invariant: every stored log list respects the cap. -/
def logsInv (m : NodeStatesMap) : Prop :=
  ∀ id st, m id = some st → st.logs.length ≤ MAX_LOGS_PER_NODE

/-- Stored logs of an entity, empty when the entity is absent. -/
def logsAt (m : NodeStatesMap) (id : String) : List String :=
  ((m id).map NodeExecutionState.logs).getD []

/-- A caller that performs `n` sequential log-appending updates on one
entity: each step reads the current logs through `getNodeState` and
calls `updateNodeState` with the list extended by one fresh entry. -/
def appendLogScenario (f : Nat → String) : Nat → NodeStatesMap
  | 0 => emptyMap
  | n + 1 =>
    let m := appendLogScenario f n
    let cur := ((getNodeState m "node1").map NodeExecutionState.logs).getD []
    updateNodeState (Int.ofNat n) m "node1" { logs := some (cur ++ [f n]) }

/-! ## Event parsing (frontend/src/services/socketService.ts) -/

/-- `parseNodeEvent(event)`: read the payload (defaulting to `{}`),
substitute `"idle"` for a missing status and `[]` for missing logs, and
build a `NodeStateUpdate` whose `timestamp` is the envelope timestamp.
The returned object carries no `errorStack` property. -/
def parseNodeEvent (e : NodeEvent) : NodeStateUpdate :=
  let pl := e.payload.getD {}
  { nodeId := e.nodeId,
    status := some (pl.status.getD .idle),
    timestamp := some e.timestamp,
    startTime := pl.startTime,
    endTime := pl.endTime,
    logs := some (pl.logs.getD []),
    error := pl.error,
    result := pl.result,
    progress := pl.progress }

/-- `handleNodeEvent(event)`: parse, then call `updateNodeState` with
the object literal of the eight parsed fields (`errorStack` omitted). -/
def handleNodeEvent (now : Int) (m : NodeStatesMap) (e : NodeEvent) :
    NodeStatesMap :=
  let u := parseNodeEvent e
  updateNodeState now m u.nodeId
    { status := u.status,
      timestamp := u.timestamp,
      startTime := u.startTime,
      endTime := u.endTime,
      logs := u.logs,
      error := u.error,
      result := u.result,
      progress := u.progress }

/-- The handler of `workflow:node-events-batch`: map `parseNodeEvent`
over the received events and hand the list to `batchUpdateNodeStates`
in one call. -/
def handleNodeEventsBatch (now : Int) (m : NodeStatesMap)
    (events : List NodeEvent) : NodeStatesMap :=
  batchUpdateNodeStates now m (events.map parseNodeEvent)

/-! ## Transport session (frontend/src/services/socketService.ts) -/

/-- One entry of the outbound `eventQueue`:
`{ event: string; data: unknown }`. -/
structure QueuedEvent where
  event : String
  data : String
deriving DecidableEq

/-- Client session state: whether `this.socket` is non-null, whether the
transport reports connected, the `isQueueing` flag, the outbound queue,
and the log of commands emitted over the live connection. -/
structure SocketClientState where
  socketExists : Bool
  connected : Bool
  isQueueing : Bool
  eventQueue : List QueuedEvent
  wire : List QueuedEvent
deriving DecidableEq

/-- `emitEvent(eventName, data)`: queue when the socket is null, queue
when `isQueueing`, otherwise send over the live connection. -/
def emitEvent (c : QueuedEvent) (s : SocketClientState) : SocketClientState :=
  if !s.socketExists then { s with eventQueue := s.eventQueue ++ [c] }
  else if s.isQueueing then { s with eventQueue := s.eventQueue ++ [c] }
  else { s with wire := s.wire ++ [c] }

/-- `flushEventQueue()`: return when the queue is empty; otherwise copy
and clear the queue, emitting each entry in order while the socket
reports connected. -/
def flushEventQueue (s : SocketClientState) : SocketClientState :=
  if s.eventQueue = [] then s
  else
    { s with
      eventQueue := [],
      wire := s.wire ++ (if s.socketExists && s.connected then s.eventQueue else []) }

/-- The `connect` / `reconnect` handler: the transport is now live,
`isQueueing` is cleared and the queue is flushed. -/
def onConnect (s : SocketClientState) : SocketClientState :=
  flushEventQueue { s with socketExists := true, connected := true, isQueueing := false }

/-- The `disconnect` handler: the transport is down and `isQueueing`
becomes true. -/
def onDisconnect (s : SocketClientState) : SocketClientState :=
  { s with connected := false, isQueueing := true }

/-- Client-visible transitions of the session. -/
inductive ClientOp where
  | send (c : QueuedEvent)
  | connectEvt
  | disconnectEvt

/-- Apply one session transition. -/
def applyClientOp (s : SocketClientState) : ClientOp → SocketClientState
  | .send c => emitEvent c s
  | .connectEvt => onConnect s
  | .disconnectEvt => onDisconnect s

/-- Run a sequence of session transitions. -/
def runClient (s : SocketClientState) (ops : List ClientOp) : SocketClientState :=
  ops.foldl applyClientOp s

/-- The commands submitted by a sequence of transitions, in order. -/
def sentOf (ops : List ClientOp) : List QueuedEvent :=
  ops.filterMap fun op =>
    match op with
    | .send c => some c
    | _ => none

/-- Reachable-state invariant of the session: while the socket exists
and `isQueueing` is off, the outbound queue is empty. -/
def sessionInv (s : SocketClientState) : Prop :=
  s.socketExists = true → s.isQueueing = false → s.eventQueue = []

/-! ## Helper lemmas -/

theorem truncateLogs_length_le (l : List String) :
    (truncateLogs l).length ≤ MAX_LOGS_PER_NODE := by
  unfold truncateLogs
  split
  · simp only [List.length_drop]
    omega
  · omega

theorem updateNodeState_self (now : Int) (m : NodeStatesMap) (nodeId : String)
    (u : StatePatch) :
    (updateNodeState now m nodeId u) nodeId
      = some (mergeUpdate now ((m nodeId).getD (idleDefault now)) u) := by
  simp [updateNodeState]

theorem updateNodeState_logs (now : Int) (m : NodeStatesMap) (nodeId : String)
    (u : StatePatch) (l : List String) (h : u.logs = some l) :
    logsAt (updateNodeState now m nodeId u) nodeId = truncateLogs l := by
  simp [logsAt, updateNodeState, mergeUpdate, h]

theorem mergeBatch_eq_mergeUpdate (now : Int) (cur : NodeExecutionState)
    (u : StatePatch) (h : u.timestamp = none) :
    mergeBatch now cur u = mergeUpdate now cur u := by
  simp [mergeBatch, mergeUpdate, jsOr, h]

theorem applyBatchItem_eq_update (now : Int) (m : NodeStatesMap)
    (u : NodeStateUpdate) (h : u.timestamp = none) :
    applyBatchItem now m u = updateNodeState now m u.nodeId u.toPatch := by
  funext k
  by_cases hk : k = u.nodeId
  · subst hk
    simp [applyBatchItem, updateNodeState,
      mergeBatch_eq_mergeUpdate now _ u.toPatch (by simp [NodeStateUpdate.toPatch, h])]
  · simp [applyBatchItem, updateNodeState, hk]

/-! ## Claim theorems for the state store -/

/-- C7 counterexample: with the current time 100, a patch that supplies
timestamp 5 is stored with timestamp 100, not the supplied 5, refuting
the claim that a patch-supplied timestamp is the one stored. -/
theorem c7_counterexample :
    ((updateNodeState 100 emptyMap "n" ({ timestamp := some 5 } : StatePatch)) "n").map
        NodeExecutionState.timestamp = some 100 ∧
    ((updateNodeState 100 emptyMap "n" ({ timestamp := some 5 } : StatePatch)) "n").map
        NodeExecutionState.timestamp ≠ some 5 := by
  decide

/-- C7 amended: `updateNodeState` stores the shallow merge of the patch
over the current state (or the idle default for an absent id), leaves
every other entity untouched, and always sets the stored timestamp to
the current time, even when the patch supplies a timestamp. -/
theorem c7_update_merge (now : Int) (m : NodeStatesMap) (nodeId : String)
    (u : StatePatch) :
    ((updateNodeState now m nodeId u) nodeId).map NodeExecutionState.timestamp
      = some now ∧
    ((updateNodeState now m nodeId u) nodeId).map NodeExecutionState.status
      = some (u.status.getD (((m nodeId).getD (idleDefault now)).status)) ∧
    ((updateNodeState now m nodeId u) nodeId).map NodeExecutionState.logs
      = some (truncateLogs (u.logs.getD (((m nodeId).getD (idleDefault now)).logs))) ∧
    ((updateNodeState now m nodeId u) nodeId).map NodeExecutionState.startTime
      = some (spreadField u.startTime (((m nodeId).getD (idleDefault now)).startTime)) ∧
    ∀ k, k ≠ nodeId → (updateNodeState now m nodeId u) k = m k := by
  refine ⟨?_, ?_, ?_, ?_, ?_⟩
  · simp [updateNodeState, mergeUpdate]
  · simp [updateNodeState, mergeUpdate]
  · simp [updateNodeState, mergeUpdate]
  · simp [updateNodeState, mergeUpdate]
  · intro k hk
    simp [updateNodeState, hk]

/-- Witness for the amended C7 statement on a concrete input. -/
theorem c7_update_merge_witness :
    ((updateNodeState 100 emptyMap "n" ({ timestamp := some 5 } : StatePatch)) "n").map
        NodeExecutionState.timestamp = some 100 ∧
    (updateNodeState 100 emptyMap "n" ({ timestamp := some 5 } : StatePatch)) "k"
      = emptyMap "k" :=
  ⟨(c7_update_merge 100 emptyMap "n" _).1,
   (c7_update_merge 100 emptyMap "n" _).2.2.2.2 "k" (by decide)⟩

/-- C6 counterexample: an entity whose stored status is the terminal
`error` is moved back to the non-terminal `running` by a later update
with no intervening reset, refuting the terminal-status claim. -/
theorem c6_counterexample :
    ((updateNodeState 1 emptyMap "n" ({ status := some .error } : StatePatch)) "n").map
        NodeExecutionState.status = some NodeStatus.error ∧
    ((updateNodeState 2
        (updateNodeState 1 emptyMap "n" ({ status := some .error } : StatePatch))
        "n" ({ status := some .running } : StatePatch)) "n").map
        NodeExecutionState.status = some NodeStatus.running ∧
    NodeStatus.running ≠ NodeStatus.error ∧
    NodeStatus.running ≠ NodeStatus.completed := by
  decide

/-- C6 amended: the merge logic does not treat `error` or `completed` as
terminal — any update or batch item that supplies a status overwrites
the stored status with the supplied value; only `resetNodeStates`
(invoked at a new workflow run) clears the state map. -/
theorem c6_status_overwrite :
    (∀ (now : Int) (m : NodeStatesMap) (nodeId : String) (u : StatePatch)
        (st : NodeStatus), u.status = some st →
      ((updateNodeState now m nodeId u) nodeId).map NodeExecutionState.status
        = some st) ∧
    (∀ (now : Int) (m : NodeStatesMap) (v : NodeStateUpdate) (st : NodeStatus),
        v.status = some st →
      ((applyBatchItem now m v) v.nodeId).map NodeExecutionState.status = some st) ∧
    (∀ id, resetNodeStates id = none) := by
  refine ⟨?_, ?_, ?_⟩
  · intro now m nodeId u st h
    simp [updateNodeState, mergeUpdate, h]
  · intro now m v st h
    simp [applyBatchItem, mergeBatch, NodeStateUpdate.toPatch, h]
  · intro id
    rfl

/-- Witness for the amended C6 statement on a concrete input. -/
theorem c6_status_overwrite_witness :
    ((updateNodeState 2
        (updateNodeState 1 emptyMap "n" ({ status := some .error } : StatePatch))
        "n" ({ status := some .running } : StatePatch)) "n").map
        NodeExecutionState.status = some NodeStatus.running ∧
    resetNodeStates "n" = none :=
  ⟨c6_status_overwrite.1 2 _ "n" _ .running rfl, c6_status_overwrite.2.2 "n"⟩

/-- C3 counterexample: a single batch item that supplies timestamp 5 is
stored with timestamp 5 by `batchUpdateNodeStates` but with the current
time 100 by the merge of `updateNodeState`, so the batch merge is not
the same merge logic as `update`. -/
theorem c3_counterexample :
    batchUpdateNodeStates 100 emptyMap
        [({ nodeId := "n1", timestamp := some 5 } : NodeStateUpdate)] "n1"
      ≠ specFoldUpdate 100 emptyMap
        [({ nodeId := "n1", timestamp := some 5 } : NodeStateUpdate)] "n1" := by
  decide

/-- C3 amended: for every ordered sequence of patches none of which
supplies a timestamp, the state after `batchUpdateNodeStates` equals the
fold of the per-patch `updateNodeState` merges evaluated at the same
clock instant, committed as one transition; when a patch supplies a
nonzero timestamp the two merges differ, because the batch merge stores
the supplied timestamp while the update merge stamps the current time. -/
theorem c3_batch_refines_update (now : Int) (m : NodeStatesMap)
    (updates : List NodeStateUpdate) (h : ∀ u ∈ updates, u.timestamp = none) :
    batchUpdateNodeStates now m updates = specFoldUpdate now m updates := by
  induction updates generalizing m with
  | nil => rfl
  | cons u rest ih =>
    have hstep := applyBatchItem_eq_update now m u (h u (by simp))
    show List.foldl (applyBatchItem now) (applyBatchItem now m u) rest
      = List.foldl (fun acc v => updateNodeState now acc v.nodeId v.toPatch)
          (updateNodeState now m u.nodeId u.toPatch) rest
    rw [hstep]
    exact ih (updateNodeState now m u.nodeId u.toPatch)
      (fun v hv => h v (by simp [hv]))

/-- Witness for the amended C3 statement on a concrete input. -/
theorem c3_batch_refines_update_witness :
    batchUpdateNodeStates 7 emptyMap
        [({ nodeId := "a", status := some .running } : NodeStateUpdate)]
      = specFoldUpdate 7 emptyMap
        [({ nodeId := "a", status := some .running } : NodeStateUpdate)] :=
  c3_batch_refines_update 7 emptyMap _ (by decide)

/-! ## Log cap invariant -/

theorem logsInv_updateNodeState (now : Int) (nodeId : String) (u : StatePatch)
    {m : NodeStatesMap} (hm : logsInv m) :
    logsInv (updateNodeState now m nodeId u) := by
  intro id st h
  by_cases hc : id = nodeId
  · subst hc
    rw [updateNodeState_self] at h
    cases h
    exact truncateLogs_length_le _
  · simp only [updateNodeState, if_neg hc] at h
    exact hm id st h

theorem logsInv_applyBatchItem (now : Int) (v : NodeStateUpdate)
    {m : NodeStatesMap} (hm : logsInv m) :
    logsInv (applyBatchItem now m v) := by
  intro id st h
  by_cases hc : id = v.nodeId
  · subst hc
    simp only [applyBatchItem, if_pos rfl] at h
    cases h
    exact truncateLogs_length_le _
  · simp only [applyBatchItem, if_neg hc] at h
    exact hm id st h

theorem logsInv_batchUpdateNodeStates (now : Int)
    (updates : List NodeStateUpdate) :
    ∀ {m : NodeStatesMap}, logsInv m →
      logsInv (batchUpdateNodeStates now m updates) := by
  induction updates with
  | nil => intro m hm; exact hm
  | cons v rest ih =>
    intro m hm
    exact ih (logsInv_applyBatchItem now v hm)

theorem logsInv_runStoreOps (ops : List StoreOp) :
    ∀ {m : NodeStatesMap}, logsInv m → logsInv (runStoreOps m ops) := by
  induction ops with
  | nil => intro m hm; exact hm
  | cons op rest ih =>
    intro m hm
    cases op with
    | update now nodeId u => exact ih (logsInv_updateNodeState now nodeId u hm)
    | batch now updates => exact ih (logsInv_batchUpdateNodeStates now updates hm)
    | reset => exact ih (fun id st h => nomatch h)

/-- Ledger arithmetic for one append step of the log scenario: appending
one entry to an already-truncated list and truncating again keeps the
most recent `MAX_LOGS_PER_NODE` entries of the extended source list. -/
theorem truncate_drop_append (L : List String) (a : String) (n : Nat)
    (hL : L.length = n) :
    truncateLogs (L.drop (n - MAX_LOGS_PER_NODE) ++ [a])
      = (L ++ [a]).drop (n + 1 - MAX_LOGS_PER_NODE) := by
  have hM : MAX_LOGS_PER_NODE = 100 := rfl
  by_cases hn : n < MAX_LOGS_PER_NODE
  · have h1 : n - MAX_LOGS_PER_NODE = 0 := by omega
    have h2 : n + 1 - MAX_LOGS_PER_NODE = 0 := by omega
    rw [h1, h2, List.drop_zero, List.drop_zero]
    unfold truncateLogs
    rw [if_neg]
    simp only [List.length_append, List.length_cons, List.length_nil, hL]
    omega
  · have hdlen : (L.drop (n - MAX_LOGS_PER_NODE)).length = MAX_LOGS_PER_NODE := by
      simp only [List.length_drop, hL]
      omega
    have hlen : (L.drop (n - MAX_LOGS_PER_NODE) ++ [a]).length
        = MAX_LOGS_PER_NODE + 1 := by
      simp only [List.length_append, List.length_cons, List.length_nil, hdlen]
    unfold truncateLogs
    rw [if_pos (by rw [hlen]; omega), hlen]
    have hidx : MAX_LOGS_PER_NODE + 1 - MAX_LOGS_PER_NODE = 1 := by omega
    rw [hidx, List.drop_append_eq_append_drop, List.drop_drop,
      List.drop_append_eq_append_drop, hdlen, hL]
    have e1 : 1 - MAX_LOGS_PER_NODE = 0 := by omega
    have e2 : n - MAX_LOGS_PER_NODE + 1 = n + 1 - MAX_LOGS_PER_NODE := by omega
    have e3 : n + 1 - MAX_LOGS_PER_NODE - n = 0 := by omega
    rw [e1, e2, e3]

/-- Closed form of the append scenario: after `n` log-appending updates
the stored list holds the most recent `MAX_LOGS_PER_NODE` of the `n`
entries, in order. -/
theorem appendLogScenario_logs (f : Nat → String) :
    ∀ n, logsAt (appendLogScenario f n) "node1"
      = ((List.range n).map f).drop (n - MAX_LOGS_PER_NODE) := by
  intro n
  induction n with
  | zero => simp [appendLogScenario, logsAt, emptyMap]
  | succ n ih =>
    show logsAt (updateNodeState (Int.ofNat n) (appendLogScenario f n) "node1"
        { logs := some ((((getNodeState (appendLogScenario f n) "node1").map
            NodeExecutionState.logs).getD []) ++ [f n]) }) "node1" = _
    rw [updateNodeState_logs _ _ _ _ _ rfl]
    have hcur : (((getNodeState (appendLogScenario f n) "node1").map
        NodeExecutionState.logs).getD [])
        = ((List.range n).map f).drop (n - MAX_LOGS_PER_NODE) := ih
    rw [hcur,
      truncate_drop_append ((List.range n).map f) (f n) n (by simp),
      List.range_succ, List.map_append]
    simp

/-- C4: every stored log list respects the 100-entry cap under any
sequence of store operations; when a patch supplies a list longer than
the cap, the stored list is exactly its last 100 entries in order; and
150 sequential log-appending updates to one entity leave exactly the
last 100 entries, in order. -/
theorem c4_log_cap :
    (∀ (m : NodeStatesMap) (ops : List StoreOp),
      logsInv m → logsInv (runStoreOps m ops)) ∧
    (∀ (now : Int) (m : NodeStatesMap) (nodeId : String) (u : StatePatch)
        (l : List String), u.logs = some l → MAX_LOGS_PER_NODE < l.length →
      logsAt (updateNodeState now m nodeId u) nodeId
        = l.drop (l.length - MAX_LOGS_PER_NODE)) ∧
    (∀ f : Nat → String,
      logsAt (appendLogScenario f 150) "node1" = ((List.range 150).map f).drop 50 ∧
      (logsAt (appendLogScenario f 150) "node1").length = 100) := by
  refine ⟨?_, ?_, ?_⟩
  · intro m ops hm
    exact logsInv_runStoreOps ops hm
  · intro now m nodeId u l hu hl
    rw [updateNodeState_logs now m nodeId u l hu]
    unfold truncateLogs
    rw [if_pos hl]
  · intro f
    have h := appendLogScenario_logs f 150
    have h50 : 150 - MAX_LOGS_PER_NODE = 50 := by decide
    rw [h50] at h
    refine ⟨h, ?_⟩
    rw [h]
    simp

/-- Witness for C4 on concrete inputs: the invariant on the empty map,
a 101-entry patch truncated to its last 100 entries, and the length
conclusion of the 150-append scenario. -/
theorem c4_log_cap_witness :
    logsInv (runStoreOps emptyMap []) ∧
    logsAt (updateNodeState 0 emptyMap "n"
        ({ logs := some (List.replicate 101 "x") } : StatePatch)) "n"
      = (List.replicate 101 "x").drop
          ((List.replicate 101 "x").length - MAX_LOGS_PER_NODE) ∧
    (logsAt (appendLogScenario (fun _ => "x") 150) "node1").length = 100 :=
  ⟨c4_log_cap.1 emptyMap [] (fun _ _ h => nomatch h),
   c4_log_cap.2.1 0 emptyMap "n" _ (List.replicate 101 "x") rfl
     (by rw [List.length_replicate]; decide),
   (c4_log_cap.2.2 (fun _ => "x")).2⟩

/-! ## Claim theorem for the event-parsing path -/

/-- C10: when an inbound node event has no payload, or its payload omits
the status or logs fields, `parseNodeEvent` substitutes status `idle`
and logs `[]`, and applying the resulting update — through the batch
handler or through `handleNodeEvent` — overwrites the stored status
with `idle` and replaces the stored log list with `[]`, whatever the
previous state of the entity was. -/
theorem c10_idle_default_overwrite (now : Int) (m : NodeStatesMap)
    (e : NodeEvent) :
    ((e.payload.getD {}).status = none →
      ((handleNodeEventsBatch now m [e]) e.nodeId).map NodeExecutionState.status
          = some NodeStatus.idle ∧
      ((handleNodeEvent now m e) e.nodeId).map NodeExecutionState.status
          = some NodeStatus.idle) ∧
    ((e.payload.getD {}).logs = none →
      ((handleNodeEventsBatch now m [e]) e.nodeId).map NodeExecutionState.logs
          = some [] ∧
      ((handleNodeEvent now m e) e.nodeId).map NodeExecutionState.logs
          = some []) := by
  constructor
  · intro h
    constructor
    · simp [handleNodeEventsBatch, batchUpdateNodeStates, applyBatchItem,
        parseNodeEvent, mergeBatch, NodeStateUpdate.toPatch, h]
    · simp [handleNodeEvent, parseNodeEvent, updateNodeState, mergeUpdate, h]
  · intro h
    constructor
    · simp [handleNodeEventsBatch, batchUpdateNodeStates, applyBatchItem,
        parseNodeEvent, mergeBatch, NodeStateUpdate.toPatch, h, truncateLogs]
    · simp [handleNodeEvent, parseNodeEvent, updateNodeState, mergeUpdate, h,
        truncateLogs]

/-- Witness for C10: an event without payload resets a completed entity
with a non-empty log list back to idle with empty logs. -/
theorem c10_idle_default_overwrite_witness :
    ((handleNodeEventsBatch 50
        (updateNodeState 1 emptyMap "n"
          ({ status := some .completed, logs := some ["a"] } : StatePatch))
        [({ eventType := .complete, nodeId := "n", timestamp := 9 } : NodeEvent)])
      "n").map NodeExecutionState.status = some NodeStatus.idle ∧
    ((handleNodeEventsBatch 50
        (updateNodeState 1 emptyMap "n"
          ({ status := some .completed, logs := some ["a"] } : StatePatch))
        [({ eventType := .complete, nodeId := "n", timestamp := 9 } : NodeEvent)])
      "n").map NodeExecutionState.logs = some [] :=
  ⟨((c10_idle_default_overwrite 50
      (updateNodeState 1 emptyMap "n"
        ({ status := some .completed, logs := some ["a"] } : StatePatch))
      ({ eventType := .complete, nodeId := "n", timestamp := 9 } : NodeEvent)).1
      rfl).1,
   ((c10_idle_default_overwrite 50
      (updateNodeState 1 emptyMap "n"
        ({ status := some .completed, logs := some ["a"] } : StatePatch))
      ({ eventType := .complete, nodeId := "n", timestamp := 9 } : NodeEvent)).2
      rfl).1⟩

/-! ## Claim theorems for the transport session -/

/-- C5: two commands submitted while the session is disconnected (socket
absent or queueing) are appended to the outbound queue in order and are
not sent; at the next connect both are replayed over the live
connection, A before B, and only then. -/
theorem c5_reconnect_replay (s : SocketClientState) (A B : QueuedEvent)
    (h : s.socketExists = false ∨ s.isQueueing = true) :
    (emitEvent B (emitEvent A s)).wire = s.wire ∧
    (emitEvent B (emitEvent A s)).eventQueue = s.eventQueue ++ [A, B] ∧
    (onConnect (emitEvent B (emitEvent A s))).wire
      = s.wire ++ s.eventQueue ++ [A, B] ∧
    (onConnect (emitEvent B (emitEvent A s))).eventQueue = [] := by
  have hA : emitEvent A s = { s with eventQueue := s.eventQueue ++ [A] } := by
    rcases h with h | h
    · simp [emitEvent, h]
    · by_cases hse : s.socketExists <;> simp [emitEvent, h, hse]
  have hB : emitEvent B (emitEvent A s)
      = { s with eventQueue := s.eventQueue ++ [A, B] } := by
    rw [hA]
    rcases h with h | h
    · simp [emitEvent, h]
    · by_cases hse : s.socketExists <;> simp [emitEvent, h, hse]
  rw [hB]
  have hne : s.eventQueue ++ [A, B] ≠ [] := by simp
  refine ⟨rfl, rfl, ?_, ?_⟩
  · simp [onConnect, flushEventQueue, hne]
  · simp [onConnect, flushEventQueue, hne]

/-- Witness for C5 on a concrete disconnected session. -/
theorem c5_reconnect_replay_witness :
    (onConnect (emitEvent ⟨"workflow:cancel", "b"⟩
        (emitEvent ⟨"workflow:execute", "a"⟩
          (⟨false, false, false, [], []⟩ : SocketClientState)))).wire
      = ([] : List QueuedEvent) ++ [] ++
          [⟨"workflow:execute", "a"⟩, ⟨"workflow:cancel", "b"⟩] ∧
    (onConnect (emitEvent ⟨"workflow:cancel", "b"⟩
        (emitEvent ⟨"workflow:execute", "a"⟩
          (⟨false, false, false, [], []⟩ : SocketClientState)))).eventQueue = [] :=
  ⟨(c5_reconnect_replay _ _ _ (Or.inl rfl)).2.2.1,
   (c5_reconnect_replay _ _ _ (Or.inl rfl)).2.2.2⟩

/-- C9: starting from any session state satisfying the reachable-state
invariant, every submitted command is accounted for after any sequence
of transitions — the commands sent over the wire followed by the
still-queued commands equal the original wire and queue contents
followed by all submitted commands, in FIFO order; no command is lost
and the invariant is preserved. -/
theorem c9_no_command_lost (ops : List ClientOp) :
    ∀ (s : SocketClientState), sessionInv s →
      (runClient s ops).wire ++ (runClient s ops).eventQueue
          = s.wire ++ s.eventQueue ++ sentOf ops ∧
      sessionInv (runClient s ops) := by
  induction ops with
  | nil =>
    intro s hs
    exact ⟨by simp [runClient, sentOf], hs⟩
  | cons op rest ih =>
    intro s hs
    have hrun : runClient s (op :: rest) = runClient (applyClientOp s op) rest := rfl
    cases op with
    | send c =>
      have hstep :
          (emitEvent c s).wire ++ (emitEvent c s).eventQueue
              = s.wire ++ s.eventQueue ++ [c] ∧
          sessionInv (emitEvent c s) := by
        by_cases h1 : s.socketExists
        · by_cases h2 : s.isQueueing
          · constructor
            · simp [emitEvent, h1, h2, List.append_assoc]
            · intro ha hb
              simp [emitEvent, h1, h2] at ha hb
          · have hq : s.eventQueue = [] := hs (by simp [h1]) (by simp [h2])
            constructor
            · simp [emitEvent, h1, h2, hq]
            · intro ha hb
              simp [emitEvent, h1, h2, hq]
        · constructor
          · simp [emitEvent, h1, List.append_assoc]
          · intro ha hb
            simp [emitEvent, h1] at ha
      obtain ⟨hsum, hinv⟩ := ih (emitEvent c s) hstep.2
      refine ⟨?_, hinv⟩
      rw [hrun]
      show (runClient (emitEvent c s) rest).wire
          ++ (runClient (emitEvent c s) rest).eventQueue = _
      rw [hsum, hstep.1]
      simp [sentOf, List.filterMap_cons, List.append_assoc]
    | connectEvt =>
      have hstep :
          (onConnect s).wire ++ (onConnect s).eventQueue
              = s.wire ++ s.eventQueue ∧
          sessionInv (onConnect s) := by
        by_cases hq : s.eventQueue = []
        · constructor
          · simp [onConnect, flushEventQueue, hq]
          · intro ha hb
            simp [onConnect, flushEventQueue, hq]
        · constructor
          · simp [onConnect, flushEventQueue, hq]
          · intro ha hb
            simp [onConnect, flushEventQueue, hq]
      obtain ⟨hsum, hinv⟩ := ih (onConnect s) hstep.2
      refine ⟨?_, hinv⟩
      rw [hrun]
      show (runClient (onConnect s) rest).wire
          ++ (runClient (onConnect s) rest).eventQueue = _
      rw [hsum, hstep.1]
      simp [sentOf, List.filterMap_cons]
    | disconnectEvt =>
      have hstep :
          (onDisconnect s).wire ++ (onDisconnect s).eventQueue
              = s.wire ++ s.eventQueue ∧
          sessionInv (onDisconnect s) := by
        constructor
        · simp [onDisconnect]
        · intro ha hb
          simp [onDisconnect] at hb
      obtain ⟨hsum, hinv⟩ := ih (onDisconnect s) hstep.2
      refine ⟨?_, hinv⟩
      rw [hrun]
      show (runClient (onDisconnect s) rest).wire
          ++ (runClient (onDisconnect s) rest).eventQueue = _
      rw [hsum, hstep.1]
      simp [sentOf, List.filterMap_cons]

/-- Witness for C9: submit, disconnect, submit, reconnect from a live
session — both commands end up on the wire in order and the queue is
empty. -/
theorem c9_no_command_lost_witness :
    (runClient (⟨true, true, false, [], []⟩ : SocketClientState)
        [.send ⟨"workflow:execute", "a"⟩, .disconnectEvt,
         .send ⟨"workflow:cancel", "b"⟩, .connectEvt]).wire
      ++ (runClient (⟨true, true, false, [], []⟩ : SocketClientState)
        [.send ⟨"workflow:execute", "a"⟩, .disconnectEvt,
         .send ⟨"workflow:cancel", "b"⟩, .connectEvt]).eventQueue
      = ([] : List QueuedEvent) ++ [] ++
          sentOf [.send ⟨"workflow:execute", "a"⟩, .disconnectEvt,
            .send ⟨"workflow:cancel", "b"⟩, .connectEvt] :=
  (c9_no_command_lost _ _ (fun _ _ => rfl)).1

/-! ## Emitter lemmas -/

theorem flushBatch_of_none (s : EmitterState) (sid wid key : String)
    (h : s.eventQueues key = none) :
    flushBatch s sid wid key = (s, none) := by
  simp [flushBatch, h]

theorem emitNodeEvent_no_flush (b : Nat) (sid wid : String) (e : NodeEvent)
    (s : EmitterState)
    (h : ((s.eventQueues (qKey sid wid)).getD []).length + 1 < b) :
    (emitNodeEvent b sid wid e s).2 = none ∧
    (emitNodeEvent b sid wid e s).1.eventQueues (qKey sid wid)
      = some (((s.eventQueues (qKey sid wid)).getD []) ++ [e]) ∧
    (emitNodeEvent b sid wid e s).1.batchTimers (qKey sid wid) = true := by
  have hb : ¬ b ≤ ((s.eventQueues (qKey sid wid)).getD []).length + 1 := by
    omega
  by_cases ht : s.batchTimers (qKey sid wid)
  · refine ⟨?_, ?_, ?_⟩ <;> simp [emitNodeEvent, hb, ht]
  · refine ⟨?_, ?_, ?_⟩ <;> simp [emitNodeEvent, hb, ht]

theorem emitNodeEvent_flush (b : Nat) (sid wid : String) (e : NodeEvent)
    (s : EmitterState)
    (h : b ≤ (((s.eventQueues (qKey sid wid)).getD []) ++ [e]).length) :
    (emitNodeEvent b sid wid e s).2
      = some ⟨sid, (((s.eventQueues (qKey sid wid)).getD []) ++ [e]).length,
          ((s.eventQueues (qKey sid wid)).getD []) ++ [e], wid⟩ ∧
    (emitNodeEvent b sid wid e s).1.eventQueues (qKey sid wid) = none ∧
    (emitNodeEvent b sid wid e s).1.batchTimers (qKey sid wid) = false := by
  have h2 : b ≤ ((s.eventQueues (qKey sid wid)).getD []).length + 1 := by
    simp only [List.length_append, List.length_cons, List.length_nil] at h
    omega
  refine ⟨?_, ?_, ?_⟩ <;>
    simp [emitNodeEvent, flushBatch, h2]

theorem emitManyFrom_no_flush (b : Nat) (sid wid : String) :
    ∀ (es : List NodeEvent) (s : EmitterState),
      ((s.eventQueues (qKey sid wid)).getD []).length + es.length < b →
      (emitManyFrom b sid wid es s).2 = [] ∧
      ((emitManyFrom b sid wid es s).1.eventQueues (qKey sid wid)).getD []
        = ((s.eventQueues (qKey sid wid)).getD []) ++ es ∧
      (emitManyFrom b sid wid es s).1.batchTimers (qKey sid wid)
        = (s.batchTimers (qKey sid wid) || !es.isEmpty) := by
  intro es
  induction es with
  | nil =>
    intro s h
    simp [emitManyFrom]
  | cons e rest ih =>
    intro s h
    have h1 : ((s.eventQueues (qKey sid wid)).getD []).length + 1 < b := by
      simp only [List.length_cons] at h
      omega
    obtain ⟨o1, q1, t1⟩ := emitNodeEvent_no_flush b sid wid e s h1
    have h2 : (((emitNodeEvent b sid wid e s).1.eventQueues
        (qKey sid wid)).getD []).length + rest.length < b := by
      rw [q1]
      simp only [Option.getD_some, List.length_append, List.length_cons,
        List.length_nil, List.length_cons] at h ⊢
      omega
    obtain ⟨o2, q2, t2⟩ := ih (emitNodeEvent b sid wid e s).1 h2
    refine ⟨?_, ?_, ?_⟩
    · show (emitNodeEvent b sid wid e s).2.toList
          ++ (emitManyFrom b sid wid rest (emitNodeEvent b sid wid e s).1).2 = []
      rw [o1, o2]
      rfl
    · show ((emitManyFrom b sid wid rest
          (emitNodeEvent b sid wid e s).1).1.eventQueues (qKey sid wid)).getD [] = _
      rw [q2, q1]
      simp
    · show (emitManyFrom b sid wid rest
          (emitNodeEvent b sid wid e s).1).1.batchTimers (qKey sid wid) = _
      rw [t2, t1]
      simp

theorem emitManyFrom_append (b : Nat) (sid wid : String) (xs ys : List NodeEvent) :
    ∀ s : EmitterState,
      emitManyFrom b sid wid (xs ++ ys) s
        = ((emitManyFrom b sid wid ys (emitManyFrom b sid wid xs s).1).1,
           (emitManyFrom b sid wid xs s).2
             ++ (emitManyFrom b sid wid ys (emitManyFrom b sid wid xs s).1).2) := by
  induction xs with
  | nil =>
    intro s
    simp [emitManyFrom]
  | cons x xt ih =>
    intro s
    simp [emitManyFrom, ih, List.append_assoc]

/-! ## Claim theorems for the batching emitter -/

/-- C1: from a fresh queue key, emitting exactly `batchSize` events
before the window elapses delivers exactly one batch carrying those
events with count `batchSize`, clears the pending list, cancels the
window timer in the same flush, and a subsequent timer callback would
deliver nothing. -/
theorem c1_size_triggered_flush (b : Nat) (sid wid : String)
    (es : List NodeEvent) (s : EmitterState) (hb : 1 ≤ b)
    (hlen : es.length = b)
    (hq : (s.eventQueues (qKey sid wid)).getD [] = []) :
    (emitManyFrom b sid wid es s).2 = [⟨sid, b, es, wid⟩] ∧
    (emitManyFrom b sid wid es s).1.eventQueues (qKey sid wid) = none ∧
    (emitManyFrom b sid wid es s).1.batchTimers (qKey sid wid) = false ∧
    (flushBatch (emitManyFrom b sid wid es s).1 sid wid (qKey sid wid)).2
      = none := by
  have hne : es ≠ [] := by
    intro hcon
    rw [hcon] at hlen
    simp at hlen
    omega
  obtain ⟨init, last, hsplit⟩ :
      ∃ init last, es = init ++ [last] := by
    rcases List.eq_nil_or_concat es with h | ⟨init, last, h⟩
    · exact absurd h hne
    · exact ⟨init, last, by simpa using h⟩
  subst hsplit
  have hinit : init.length + 1 = b := by
    simpa using hlen
  have hsmall : ((s.eventQueues (qKey sid wid)).getD []).length
      + init.length < b := by
    rw [hq]
    simp
    omega
  obtain ⟨o1, q1, t1⟩ := emitManyFrom_no_flush b sid wid init s hsmall
  rw [hq] at q1
  simp only [List.nil_append] at q1
  set s1 := (emitManyFrom b sid wid init s).1 with hs1
  have hready : b ≤ (((s1.eventQueues (qKey sid wid)).getD []) ++ [last]).length := by
    rw [q1]
    simp only [List.length_append, List.length_cons, List.length_nil]
    omega
  obtain ⟨fo, fq, ft⟩ := emitNodeEvent_flush b sid wid last s1 hready
  rw [q1] at fo
  have hall : emitManyFrom b sid wid (init ++ [last]) s
      = ((emitManyFrom b sid wid [last] s1).1,
         (emitManyFrom b sid wid init s).2
           ++ (emitManyFrom b sid wid [last] s1).2) :=
    emitManyFrom_append b sid wid init [last] s
  have hsingle2 : (emitManyFrom b sid wid [last] s1).2
      = (emitNodeEvent b sid wid last s1).2.toList := by
    simp [emitManyFrom]
  have hsingle1 : (emitManyFrom b sid wid [last] s1).1
      = (emitNodeEvent b sid wid last s1).1 := by
    simp [emitManyFrom]
  have hcount : (init ++ [last]).length = b := hlen
  refine ⟨?_, ?_, ?_, ?_⟩
  · rw [hall]
    simp only [hsingle2, o1, fo, List.nil_append]
    simp only [Option.toList_some]
    rw [show (init ++ [last]).length = b from hlen]
  · rw [hall]
    simp only [hsingle1]
    exact fq
  · rw [hall]
    simp only [hsingle1]
    exact ft
  · rw [hall]
    simp only [hsingle1]
    exact congrArg Prod.snd
      (flushBatch_of_none (emitNodeEvent b sid wid last s1).1 sid wid
        (qKey sid wid) fq)

/-- Witness for C1: ten events on a fresh key with the default batch
size 10 produce exactly one batch of count 10 and leave no timer. -/
theorem c1_size_triggered_flush_witness :
    (emitManyFrom 10 "s" "w"
        (List.replicate 10 (⟨.start, "n", none, 1⟩ : NodeEvent))
        initialEmitterState).2
      = [⟨"s", 10, List.replicate 10 (⟨.start, "n", none, 1⟩ : NodeEvent), "w"⟩] ∧
    (emitManyFrom 10 "s" "w"
        (List.replicate 10 (⟨.start, "n", none, 1⟩ : NodeEvent))
        initialEmitterState).1.batchTimers (qKey "s" "w") = false :=
  ⟨(c1_size_triggered_flush 10 "s" "w" _ initialEmitterState (by decide)
      (by decide) rfl).1,
   (c1_size_triggered_flush 10 "s" "w" _ initialEmitterState (by decide)
      (by decide) rfl).2.2.1⟩

/-- C2: from a fresh key with no timer armed, emitting fewer than
`batchSize` events delivers no batch and leaves the window timer armed;
the timer callback then delivers exactly one batch holding all pending
events in arrival order with count equal to their number, clears the
pending list and disarms the timer. -/
theorem c2_time_triggered_flush (b : Nat) (sid wid : String)
    (es : List NodeEvent) (s : EmitterState) (hne : es ≠ [])
    (hlen : es.length < b)
    (hq : (s.eventQueues (qKey sid wid)).getD [] = [])
    (ht : s.batchTimers (qKey sid wid) = false) :
    (emitManyFrom b sid wid es s).2 = [] ∧
    (emitManyFrom b sid wid es s).1.batchTimers (qKey sid wid) = true ∧
    (flushBatch (emitManyFrom b sid wid es s).1 sid wid (qKey sid wid)).2
      = some ⟨sid, es.length, es, wid⟩ ∧
    (flushBatch (emitManyFrom b sid wid es s).1 sid wid
        (qKey sid wid)).1.eventQueues (qKey sid wid) = none ∧
    (flushBatch (emitManyFrom b sid wid es s).1 sid wid
        (qKey sid wid)).1.batchTimers (qKey sid wid) = false := by
  have hsmall : ((s.eventQueues (qKey sid wid)).getD []).length
      + es.length < b := by
    rw [hq]
    simpa using hlen
  obtain ⟨o1, q1, t1⟩ := emitManyFrom_no_flush b sid wid es s hsmall
  rw [hq] at q1
  simp only [List.nil_append] at q1
  have ht1 : (emitManyFrom b sid wid es s).1.batchTimers (qKey sid wid)
      = true := by
    rw [t1, ht]
    simp [hne]
  have hsome : (emitManyFrom b sid wid es s).1.eventQueues (qKey sid wid)
      = some es := by
    cases hcase : (emitManyFrom b sid wid es s).1.eventQueues (qKey sid wid) with
    | none =>
      rw [hcase] at q1
      simp at q1
      exact absurd q1 hne
    | some q =>
      rw [hcase] at q1
      simp at q1
      rw [q1]
  have hlen0 : es.length ≠ 0 := by
    intro hcon
    exact hne (List.length_eq_zero.mp hcon)
  refine ⟨o1, ht1, ?_, ?_, ?_⟩ <;>
    simp [flushBatch, hsome, hlen0]

/-- Witness for C2: three events on a fresh key with batch size 10
deliver nothing until the timer callback flushes a count-3 batch. -/
theorem c2_time_triggered_flush_witness :
    (emitManyFrom 10 "s" "w"
        ([⟨.start, "a", none, 1⟩, ⟨.running, "a", none, 2⟩,
          ⟨.complete, "a", none, 3⟩] : List NodeEvent)
        initialEmitterState).2 = [] ∧
    (flushBatch (emitManyFrom 10 "s" "w"
        ([⟨.start, "a", none, 1⟩, ⟨.running, "a", none, 2⟩,
          ⟨.complete, "a", none, 3⟩] : List NodeEvent)
        initialEmitterState).1 "s" "w" (qKey "s" "w")).2
      = some ⟨"s", 3,
          [⟨.start, "a", none, 1⟩, ⟨.running, "a", none, 2⟩,
           ⟨.complete, "a", none, 3⟩], "w"⟩ :=
  ⟨(c2_time_triggered_flush 10 "s" "w" _ initialEmitterState (by decide)
      (by decide) rfl rfl).1,
   (c2_time_triggered_flush 10 "s" "w" _ initialEmitterState (by decide)
      (by decide) rfl rfl).2.2.1⟩

/-- C8 counterexample: an envelope with timestamp 0 fails the
`NodeEventSchema` validity check, yet `emitNodeEvent` appends it to the
pending list, arms the window timer, and the following flush delivers it
inside a batch — refuting the claim that invalid envelopes are rejected
before entering a batch queue. -/
theorem c8_counterexample :
    validNodeEvent ⟨.start, "n", none, 0⟩ = false ∧
    (emitNodeEvent 10 "s" "w" ⟨.start, "n", none, 0⟩ initialEmitterState).2
      = none ∧
    (emitNodeEvent 10 "s" "w" ⟨.start, "n", none, 0⟩
        initialEmitterState).1.eventQueues (qKey "s" "w")
      = some [⟨.start, "n", none, 0⟩] ∧
    (emitNodeEvent 10 "s" "w" ⟨.start, "n", none, 0⟩
        initialEmitterState).1.batchTimers (qKey "s" "w") = true ∧
    (flushBatch (emitNodeEvent 10 "s" "w" ⟨.start, "n", none, 0⟩
        initialEmitterState).1 "s" "w" (qKey "s" "w")).2
      = some ⟨"s", 1, [⟨.start, "n", none, 0⟩], "w"⟩ := by
  decide

/-- C8 amended: `emitNodeEvent` performs no schema validation — every
envelope, valid or not, is appended to the pending list of its queue
key, and when the append reaches the batch size the whole pending list
including that envelope is delivered in the flushed batch. -/
theorem c8_no_validation (b : Nat) (sid wid : String) (e : NodeEvent)
    (s : EmitterState) :
    ((emitNodeEvent b sid wid e s).2 = none ∧
      (emitNodeEvent b sid wid e s).1.eventQueues (qKey sid wid)
        = some (((s.eventQueues (qKey sid wid)).getD []) ++ [e])) ∨
    ((emitNodeEvent b sid wid e s).2
        = some ⟨sid, (((s.eventQueues (qKey sid wid)).getD []) ++ [e]).length,
            ((s.eventQueues (qKey sid wid)).getD []) ++ [e], wid⟩ ∧
      (emitNodeEvent b sid wid e s).1.eventQueues (qKey sid wid) = none) := by
  by_cases h : b ≤ (((s.eventQueues (qKey sid wid)).getD []) ++ [e]).length
  · right
    obtain ⟨fo, fq, _⟩ := emitNodeEvent_flush b sid wid e s h
    exact ⟨fo, fq⟩
  · left
    have h1 : ((s.eventQueues (qKey sid wid)).getD []).length + 1 < b := by
      simp only [List.length_append, List.length_cons, List.length_nil] at h
      omega
    obtain ⟨o1, q1, _⟩ := emitNodeEvent_no_flush b sid wid e s h1
    exact ⟨o1, q1⟩

end Workflow
